import Mathlib

/-!
Shallow embedding of the botman browser-automation core
(`botman/browser/core.py` and `botman/mcp/server.py`).

Pure helpers of the Python source are translated to Lean functions;
stateful code (the persistent-context bookkeeping, the session
registry, the disposable-page scope) is modelled as explicit state
passing plus event traces; fallible code returns `Except`.

Conventions used throughout:
* Python values that flow through the field-fill pipeline are modelled
  by the inductive `PyVal` (floats are not exercised by any property
  considered here and are left out; numeric payloads are integers).
* Python `str.strip()` / JS `String.trim()` are modelled over the ASCII
  whitespace characters (space, tab, newline, carriage return, vertical
  tab, form feed); the inputs under study are ASCII.
* Python `repr` of strings is modelled without escape handling (no
  property evaluates `repr` on strings containing quotes).
-/

/-- Does `needle` match at the head of `hay`? (helper for substring search). -/
def subAt : List Char → List Char → Bool
  | [], _ => true
  | _ :: _, [] => false
  | a :: as, b :: bs => a = b && subAt as bs

/-- Does `needle` occur contiguously anywhere in `hay`? -/
def hasSub (needle : List Char) : List Char → Bool
  | [] => needle.isEmpty
  | b :: bs => subAt needle (b :: bs) || hasSub needle bs

/-- Python `needle in hay` on strings (substring containment). -/
def pyInStr (needle hay : String) : Bool :=
  hasSub needle.data hay.data

/-- The whitespace set of Python `str.strip()` restricted to ASCII. -/
def isPySpace (c : Char) : Bool :=
  c = ' ' || c = '\t' || c = '\n' || c = '\r' || c = Char.ofNat 11 || c = Char.ofNat 12

/-- Python `str.strip()`: drop whitespace from both ends. -/
def pyStrip (s : String) : String :=
  String.mk (((s.data.dropWhile isPySpace).reverse.dropWhile isPySpace).reverse)

/-- Python `url.rstrip("/")`: drop every trailing slash. -/
def rstripSlashes (s : String) : String :=
  String.mk ((s.data.reverse.dropWhile (fun c => c = '/')).reverse)

/-- `BrowserBot._urls_differ(current, target)`: decide whether a persistent
page must re-navigate.  An empty current URL always differs; otherwise the
URLs are compared directly and then with all trailing slashes stripped. -/
def urlsDiffer (current target : String) : Bool :=
  if current = "" then true
  else if current = target then false
  else decide (rstripSlashes current ≠ rstripSlashes target)

/-- Python values reaching the field-normalization and fill-dispatch code. -/
inductive PyVal where
  | pnone
  | pbool (b : Bool)
  | pint (n : Int)
  | pstr (s : String)
  | plist (xs : List PyVal)
  | pdict (kvs : List (String × PyVal))

/-- A single-quote string (Python quotes string reprs with `'`). -/
def pyQuote : String := String.singleton (Char.ofNat 39)

mutual

/-- Python `repr` of a value (string escaping not modelled). -/
def pyReprV : PyVal → String
  | .pnone => "None"
  | .pbool true => "True"
  | .pbool false => "False"
  | .pint n => toString n
  | .pstr s => pyQuote ++ s ++ pyQuote
  | .plist xs => "[" ++ pyReprList xs ++ "]"
  | .pdict kvs => "\x7b" ++ pyReprDict kvs ++ "\x7d"

/-- `repr` of list elements, comma separated. -/
def pyReprList : List PyVal → String
  | [] => ""
  | [x] => pyReprV x
  | x :: y :: rest => pyReprV x ++ ", " ++ pyReprList (y :: rest)

/-- `repr` of dict items, comma separated. -/
def pyReprDict : List (String × PyVal) → String
  | [] => ""
  | [(k, v)] => pyQuote ++ k ++ pyQuote ++ ": " ++ pyReprV v
  | (k, v) :: kv :: rest =>
      pyQuote ++ k ++ pyQuote ++ ": " ++ pyReprV v ++ ", " ++ pyReprDict (kv :: rest)

end

/-- Python `str` of a value (`str` and `repr` differ only on strings). -/
def pyStr : PyVal → String
  | .pstr s => s
  | v => pyReprV v

/-- Python truthiness of a value. -/
def pyTruthy : PyVal → Bool
  | .pnone => false
  | .pbool b => b
  | .pint n => decide (n ≠ 0)
  | .pstr s => decide (s ≠ "")
  | .plist xs => !xs.isEmpty
  | .pdict kvs => !kvs.isEmpty

/-- Dict lookup (first matching key; Python dict keys are unique). -/
def dictGet : List (String × PyVal) → String → Option PyVal
  | [], _ => none
  | (k, v) :: rest, key => if k = key then some v else dictGet rest key

/-- Python `key in dict`. -/
def dictHasKey (kvs : List (String × PyVal)) (key : String) : Bool :=
  (dictGet kvs key).isSome

/-- An instruction as first assembled by `_normalize_fields` (its selector is
still a raw Python value). -/
structure RawInstr where
  selector : PyVal
  value : PyVal
  strategy : Option PyVal := none
  clear : Option Bool := none
  delay : Option PyVal := none

/-- A canonical `FieldInstruction` after normalization: the selector is a
trimmed non-empty string; `strategy`/`clear`/`delay` keep the raw entries. -/
structure FieldInstruction where
  selector : String
  value : PyVal
  strategy : Option PyVal := none
  clear : Option Bool := none
  delay : Option PyVal := none

/-- One entry of a sequence-shaped `fields` argument: a descriptor dict
(each key optional, `none` = key absent), a 2-element list/tuple, or any
other value (rejected with a `TypeError`). -/
inductive SeqEntry where
  | dictEntry (selector value strategy mode action clear delay : Option PyVal)
  | pairEntry (sel val : PyVal)
  | otherEntry

/-- The `fields` argument accepted by `_normalize_fields`: a selector→value
mapping (items in insertion order) or a sequence of entries. -/
inductive FieldsInput where
  | mapping (entries : List (PyVal × PyVal))
  | sequence (entries : List SeqEntry)

/-- First loop of `_normalize_fields` for one sequence entry: descriptor
dicts must carry `selector` and `value`; `strategy`/`mode`/`action` pick the
strategy with that priority; `clear` is coerced with `bool(...)`. -/
def seqEntryToRaw : SeqEntry → Except String RawInstr
  | .dictEntry sel val strat mode act clr dly =>
      match sel, val with
      | some s, some v =>
          .ok { selector := s, value := v, strategy := strat <|> mode <|> act,
                clear := clr.map pyTruthy, delay := dly }
      | _, _ => .error "Each field mapping must include selector and value."
  | .pairEntry sel val => .ok { selector := sel, value := val }
  | .otherEntry =>
      .error "fields must be a mapping, or a sequence of two-tuples/mappings with selector and value."

/-- The first loop of `_normalize_fields` over a sequence, left to right. -/
def seqEntriesToRaw : List SeqEntry → Except String (List RawInstr)
  | [] => .ok []
  | e :: rest =>
      match seqEntryToRaw e with
      | .error msg => .error msg
      | .ok r =>
          match seqEntriesToRaw rest with
          | .error msg => .error msg
          | .ok rs => .ok (r :: rs)

/-- `str(item.get("selector") or "").strip()`. -/
def rawSelector (v : PyVal) : String :=
  pyStrip (pyStr (if pyTruthy v then v else .pstr ""))

/-- Second loop of `_normalize_fields`: trim each selector, rejecting any
that is empty after trimming. -/
def normalizeRaw : List RawInstr → Except String (List FieldInstruction)
  | [] => .ok []
  | item :: rest =>
      let sel := rawSelector item.selector
      if sel = "" then .error "Field selector must be a non-empty string."
      else
        match normalizeRaw rest with
        | .error msg => .error msg
        | .ok tail =>
            .ok ({ selector := sel, value := item.value, strategy := item.strategy,
                   clear := item.clear, delay := item.delay } :: tail)

/-- Tail of `_normalize_fields`: run the trimming pass, then reject an empty
instruction list. -/
def finishNormalize (raws : List RawInstr) : Except String (List FieldInstruction) :=
  match normalizeRaw raws with
  | .error msg => .error msg
  | .ok normalized =>
      if normalized.isEmpty then .error "fields must include at least one entry."
      else .ok normalized

/-- `BrowserBot._normalize_fields`: `None` yields `[]`; a mapping yields one
raw instruction per item in insertion order; a sequence is parsed entry by
entry; then selectors are trimmed/validated and emptiness is rejected. -/
def normalizeFields : Option FieldsInput → Except String (List FieldInstruction)
  | none => .ok []
  | some (.mapping entries) =>
      finishNormalize (entries.map fun kv => { selector := kv.1, value := kv.2 })
  | some (.sequence entries) =>
      match seqEntriesToRaw entries with
      | .error msg => .error msg
      | .ok raws => finishNormalize raws

/-- The strategy names accepted by `_fill_fields_on_page`. -/
def allowedStrategies : List String := ["fill", "type", "check", "uncheck", "select"]

/-- Python `str.lower()` over ASCII (character-wise lowercasing). -/
def pyLower (s : String) : String :=
  String.mk (s.data.map Char.toLower)

/-- `strategy_raw.lower() if isinstance(strategy_raw, str) else None`. -/
def strategyOf : Option PyVal → Option String
  | some (.pstr s) => some (pyLower s)
  | _ => none

/-- `strategy and strategy not in allowed_strategies` (an empty string is
falsy, hence never reported as unsupported). -/
def strategyBlocked : Option String → Bool
  | some s => s != "" && !(allowedStrategies.contains s)
  | none => false

/-- `BrowserBot._is_select_value`: a dict with one of the option keys, or a
list whose members are all strings/dicts (an empty list qualifies, as
Python's `all` of an empty iterable is true). -/
def isSelectValue : PyVal → Bool
  | .pdict kvs => dictHasKey kvs "value" || dictHasKey kvs "label" || dictHasKey kvs "index"
  | .plist xs => xs.all fun item =>
      match item with
      | .pstr _ => true
      | .pdict _ => true
      | _ => false
  | _ => false

/-- `BrowserBot._normalize_select_option`: keep the present, non-`None`
entries among `value`/`label`/`index` stringified (the Python source
iterates a set; the resulting dict is order-insensitive, modelled here in
the fixed order value, label, index); reject when none is present. -/
def normalizeSelectOption (kvs : List (String × PyVal)) : Except String (List (String × String)) :=
  let keep := fun (k : String) =>
    match dictGet kvs k with
    | some .pnone => []
    | some v => [(k, pyStr v)]
    | none => []
  let normalized := keep "value" ++ keep "label" ++ keep "index"
  if normalized.isEmpty then
    .error "Select option mappings must include value, label, or index."
  else .ok normalized

/-- One argument of a multi-option selection: a normalized option dict or a
stringified scalar. -/
inductive SelectArg where
  | optMap (opts : List (String × String))
  | optStr (s : String)

/-- The payload handed to the driver's `select_option` primitive. -/
inductive SelectPayload where
  | mapOne (opts : List (String × String))
  | listMany (args : List SelectArg)
  | strOne (s : String)

/-- List case of `BrowserBot._select_option`: each item is normalized when it
is a dict and stringified otherwise. -/
def selectItems : List PyVal → Except String (List SelectArg)
  | [] => .ok []
  | .pdict kvs :: rest =>
      match normalizeSelectOption kvs with
      | .error msg => .error msg
      | .ok o =>
          match selectItems rest with
          | .error msg => .error msg
          | .ok t => .ok (.optMap o :: t)
  | v :: rest =>
      match selectItems rest with
      | .error msg => .error msg
      | .ok t => .ok (.optStr (pyStr v) :: t)

/-- `BrowserBot._select_option` up to the driver call: dict → one normalized
option; list → many; anything else → `str(value)`. -/
def selectOptionArgs : PyVal → Except String SelectPayload
  | .pdict kvs =>
      match normalizeSelectOption kvs with
      | .error msg => .error msg
      | .ok o => .ok (.mapOne o)
  | .plist xs =>
      match selectItems xs with
      | .error msg => .error msg
      | .ok args => .ok (.listMany args)
  | v => .ok (.strOne (pyStr v))

/-- The driver-level interaction chosen for one instruction. -/
inductive PageAction where
  | checkBox (selector : String)
  | uncheckBox (selector : String)
  | selectOpt (selector : String) (payload : SelectPayload)
  | typeText (selector : String) (text : String) (delay : Option Int)
  | fillText (selector : String) (text : String)

/-- The effective value reported back for one instruction; a selection
reports whatever list the driver's `select_option` call returned. -/
inductive EffValue where
  | val (v : PyVal)
  | pageSelected

/-- The per-instruction audit record appended to `results`. -/
structure FillRecord where
  selector : String
  action : String
  value : EffValue

/-- `float(delay)` pacing argument: numeric payloads are modelled as
integers (a Python bool counts as a number there). -/
def delayArg : Option PyVal → Option Int
  | some (.pint n) => some n
  | some (.pbool b) => some (if b then 1 else 0)
  | _ => none

/-- `"" if value is None else str(value)`. -/
def textOf : PyVal → String
  | .pnone => ""
  | v => pyStr v

/-- `bool(instruction.get("clear")) if "clear" in instruction else clear`. -/
def effectiveClear (clear : Bool) (inst : FieldInstruction) : Bool :=
  match inst.clear with
  | some b => b
  | none => clear

/-- `isinstance(value, bool)` together with the boolean itself. -/
def boolValue : PyVal → Option Bool
  | .pbool b => some b
  | _ => none

/-- The strategy-selection body of `_fill_fields_on_page` for one
instruction, after the unsupported-strategy guard: `strategy` is the
already lowercased strategy. -/
def dispatchCore (clear : Bool) (inst : FieldInstruction) (strategy : Option String) :
    Except String (PageAction × FillRecord) :=
  let entryClear := effectiveClear clear inst
  let shouldCheck : Option Bool :=
    if strategy = some "check" ∨ strategy = some "uncheck" then
      some (strategy = some "check")
    else boolValue inst.value
  match shouldCheck with
  | some true =>
      .ok (.checkBox inst.selector, ⟨inst.selector, "check", .val (.pbool true)⟩)
  | some false =>
      .ok (.uncheckBox inst.selector, ⟨inst.selector, "uncheck", .val (.pbool false)⟩)
  | none =>
      if strategy = some "select" ∨ isSelectValue inst.value then
        match selectOptionArgs inst.value with
        | .error e => .error e
        | .ok payload =>
            .ok (.selectOpt inst.selector payload, ⟨inst.selector, "select", .pageSelected⟩)
      else if strategy = some "type" ∨ entryClear = false then
        let text := textOf inst.value
        .ok (.typeText inst.selector text (delayArg inst.delay),
             ⟨inst.selector, "type", .val (.pstr text)⟩)
      else
        let text := textOf inst.value
        .ok (.fillText inst.selector text, ⟨inst.selector, "fill", .val (.pstr text)⟩)

/-- The per-instruction step of `_fill_fields_on_page`: lowercase a string
strategy (a non-string strategy counts as unset), reject unsupported
strategy names, then select and perform one interaction. -/
def dispatchInstruction (clear : Bool) (inst : FieldInstruction) :
    Except String (PageAction × FillRecord) :=
  let strategy := strategyOf inst.strategy
  if strategyBlocked strategy then
    .error ("Unsupported field strategy: "
      ++ (match inst.strategy with | some v => pyReprV v | none => "None") ++ ".")
  else
    dispatchCore clear inst strategy

/-- `BrowserBot._fill_fields_on_page` over a batch: instructions run left to
right; the first failure aborts the batch, leaving the driver actions of the
earlier instructions as the performed trace. -/
def fillFieldsGo (clear : Bool) : List FieldInstruction → List PageAction × Except String (List FillRecord)
  | [] => ([], .ok [])
  | inst :: rest =>
      match dispatchInstruction clear inst with
      | .error e => ([], .error e)
      | .ok (act, fr) =>
          match fillFieldsGo clear rest with
          | (acts, .ok frs) => (act :: acts, .ok (fr :: frs))
          | (acts, .error e) => (act :: acts, .error e)

/-- Entry point for the batch dispatcher (driver calls assumed to succeed;
the only failures modelled are the dispatcher's own validation errors). -/
def fillFieldsOnPage (clear : Bool) (insts : List FieldInstruction) :
    List PageAction × Except String (List FillRecord) :=
  fillFieldsGo clear insts

/-- An anchor element as seen by the collection script (`getAttribute`
returns `null` for a missing attribute, modelled by `none`). -/
structure DomElement where
  href : Option String
  innerText : Option String
  titleAttr : Option String
  ariaLabel : Option String
  targetAttr : Option String
  relAttr : Option String

/-- One record of the `links` array built by the collection script. -/
structure LinkRecord where
  position : Nat
  href : String
  text : String
  titleAttr : Option String
  ariaLabel : Option String
  targetAttr : Option String
  relAttr : Option String

/-- `slice.map((element, index) => ...)` for one element at `index = idx`. -/
def mkLinkRecord (idx : Nat) (e : DomElement) : LinkRecord :=
  { position := idx + 1
    href := e.href.getD ""
    text := pyStrip (e.innerText.getD "")
    titleAttr := e.titleAttr
    ariaLabel := e.ariaLabel
    targetAttr := e.targetAttr
    relAttr := e.relAttr }

/-- The indexed map over the sliced element list, with `idx` the running
JS array index. -/
def mapLinks : Nat → List DomElement → List LinkRecord
  | _, [] => []
  | idx, e :: rest => mkLinkRecord idx e :: mapLinks (idx + 1) rest

/-- JS `elements.slice(0, endIdx)` (a negative end counts from the back). -/
def jsSliceTo (xs : List DomElement) (endIdx : Int) : List DomElement :=
  if endIdx < 0 then xs.take ((max ((xs.length : Int) + endIdx) 0).toNat)
  else xs.take endIdx.toNat

/-- The value returned by the collection script. -/
structure ScriptResult where
  links : List LinkRecord
  truncated : Bool
  total : Nat

/-- The DOM-query script evaluated by `_collect_links`: when the root
selector does not match, an empty result; otherwise the full count, the
`total > limit` truncation flag, and the (possibly sliced) link records
with 1-based positions. -/
def collectLinksScript (rootFound : Bool) (elements : List DomElement)
    (limit : Option Int) : ScriptResult :=
  if rootFound = false then ⟨[], false, 0⟩
  else
    let total := elements.length
    match limit with
    | none => ⟨mapLinks 0 elements, false, total⟩
    | some l =>
        let truncated := decide ((total : Int) > l)
        let slice := if truncated then jsSliceTo elements l else elements
        ⟨mapLinks 0 slice, truncated, total⟩

/-- One `page.evaluate` outcome: a result (`none` models a falsy value,
which the Python caller maps to the empty result) or a raised driver
error carrying its message. -/
inductive EvalOutcome where
  | evalOk (result : Option ScriptResult)
  | evalErr (msg : String)

/-- Observable steps of the retry loop of `_collect_links`. -/
inductive RetryEvent where
  | evalAttempt (attempt : Nat)
  | waitForLoadState

/-- The substring identifying an invalidated-execution-context failure. -/
def staleContextText : String := "Execution context was destroyed"

/-- What `_collect_links` hands back to its caller. -/
structure CollectOutput where
  links : List LinkRecord
  truncated : Bool
  total : Nat

/-- The `for attempt in range(3)` retry loop of `_collect_links`, run over
the remaining attempt indices: a stale-context error before the last
attempt waits for the load state and retries; any other error (or a stale
error on the last attempt, where `attempt < 2` fails) propagates; the
empty tuple after the loop is returned only if the attempt list is
exhausted without returning or raising. -/
def collectLoop (outcomes : Nat → EvalOutcome) : List Nat → List RetryEvent × Except String CollectOutput
  | [] => ([], .ok ⟨[], false, 0⟩)
  | attempt :: rest =>
      match outcomes attempt with
      | .evalErr msg =>
          if pyInStr staleContextText msg && decide (attempt < 2) then
            let (evs, r) := collectLoop outcomes rest
            (.evalAttempt attempt :: .waitForLoadState :: evs, r)
          else ([.evalAttempt attempt], .error msg)
      | .evalOk none => ([.evalAttempt attempt], .ok ⟨[], false, 0⟩)
      | .evalOk (some r) => ([.evalAttempt attempt], .ok ⟨r.links, r.truncated, r.total⟩)

/-- `BrowserBot._collect_links` with the page's successive evaluation
outcomes abstracted as `outcomes`. -/
def collectLinksRetry (outcomes : Nat → EvalOutcome) :
    List RetryEvent × Except String CollectOutput :=
  collectLoop outcomes [0, 1, 2]

/-- `ALLOWED_WAIT_STATES`. -/
def allowedWaitStates : List String := ["load", "domcontentloaded", "networkidle"]

/-- Observable browser-facing steps of the disposable branch of
`_open_page`. -/
inductive BrowserEvent where
  | ensureBrowser
  | newContext (storage : Option String)
  | newPage
  | gotoUrl (url : String) (waitUntil : String)
  | runBody
  | closeContext

/-- The disposable (non-persistent) branch of `BrowserBot._open_page`:
validate the wait state, require a non-empty URL (truthiness, then strip),
then create a fresh context/page, navigate, run the operation body, and
close the context on every exit path (`try`/`finally`).  `gotoFails` and
`bodyFails` model the possible failures of the navigation and of the
operation body; the returned event list is the trace of browser calls. -/
def openPageDisposable (url : Option String) (waitUntil : String)
    (storage : Option String) (gotoFails bodyFails : Bool) :
    List BrowserEvent × Except String Unit :=
  if waitUntil ∉ allowedWaitStates then
    ([], .error "wait_until must be one of the allowed wait states.")
  else
    match url with
    | none => ([], .error "url must be a non-empty string.")
    | some u =>
        if u = "" then ([], .error "url must be a non-empty string.")
        else
          let target := pyStrip u
          if target = "" then ([], .error "url must be a non-empty string.")
          else
            let pre : List BrowserEvent := [.ensureBrowser, .newContext storage, .newPage]
            if gotoFails then
              (pre ++ [.gotoUrl target waitUntil, .closeContext], .error "navigation failed")
            else if bodyFails then
              (pre ++ [.gotoUrl target waitUntil, .runBody, .closeContext],
               .error "operation body failed")
            else
              (pre ++ [.gotoUrl target waitUntil, .runBody, .closeContext], .ok ())

/-- The persistent-mode bookkeeping of `BrowserBot` relevant to
`_ensure_persistent_page`: the identity of the live context (`none` when
`self._context is None`), whether a page object exists and whether it
reports closed, the storage-state key the context was built with, the path
the context was hydrated from, and a fresh-identity counter. -/
structure PersistState where
  contextId : Option Nat
  hasPage : Bool
  pageClosed : Bool
  currentKey : Option String
  hydratedFrom : Option String
  nextId : Nat
deriving DecidableEq

/-- The recreation condition of `_ensure_persistent_page`. -/
def needsNewContext (st : PersistState) (storageKey : Option String) : Bool :=
  st.contextId.isNone || !st.hasPage || st.pageClosed || decide (st.currentKey ≠ storageKey)

/-- `BrowserBot._ensure_persistent_page` with the resolved storage-state
path as `storageState` and its on-disk existence as `storageExists`: when
recreation is needed the old context/page are closed and a fresh pair is
created (hydrated from the path only when it exists) and the identity key
is updated; otherwise the state is untouched. -/
def ensurePersistentPage (st : PersistState) (storageState : Option String)
    (storageExists : Bool) : PersistState :=
  if needsNewContext st storageState then
    { contextId := some st.nextId
      hasPage := true
      pageClosed := false
      currentKey := storageState
      hydratedFrom := if storageExists then storageState else none
      nextId := st.nextId + 1 }
  else st

/-- The process-wide BrowserBot configuration held by the MCP server. -/
structure BotConfig where
  headless : Bool
  persistContext : Bool
deriving DecidableEq

/-- One `_AgentBundle`: the created bot (identified by a creation counter
and the configuration it was built with) plus its exclusive lock. -/
structure AgentBundle where
  botId : Nat
  botConfig : BotConfig
deriving DecidableEq

/-- The module-level session state of `botman.mcp.server`: the current
configuration, the client-key → bundle map (association list in insertion
order) and a fresh-bot counter. -/
structure SessionRegistry where
  config : BotConfig
  agents : List (String × AgentBundle)
  nextBotId : Nat
deriving DecidableEq

/-- `_SESSION_KEY_DEFAULT`. -/
def sessionKeyDefault : String := "__default__"

/-- `client_id or _SESSION_KEY_DEFAULT` (an empty id is falsy). -/
def sessionKey : Option String → String
  | some s => if s = "" then sessionKeyDefault else s
  | none => sessionKeyDefault

/-- Association-list lookup of `_session_agents`. -/
def lookupAgent : List (String × AgentBundle) → String → Option AgentBundle
  | [], _ => none
  | (k, b) :: rest, key => if k = key then some b else lookupAgent rest key

/-- `_get_agent_bundle`: return the cached bundle for the client's key, or
create one from the current configuration and cache it. -/
def getAgentBundle (r : SessionRegistry) (clientId : Option String) :
    SessionRegistry × AgentBundle :=
  let key := sessionKey clientId
  match lookupAgent r.agents key with
  | some b => (r, b)
  | none =>
      let b : AgentBundle := ⟨r.nextBotId, r.config⟩
      ({ r with agents := r.agents ++ [(key, b)], nextBotId := r.nextBotId + 1 }, b)

/-- `configure_browser_agent`: install the new configuration and reset the
registry (`_reset_sessions` clears the map and shuts down every bundle);
the second component is the list of bundles shut down. -/
def configureBrowserAgent (r : SessionRegistry) (headless persist : Bool) :
    SessionRegistry × List AgentBundle :=
  ({ config := ⟨headless, persist⟩, agents := [], nextBotId := r.nextBotId },
   r.agents.map Prod.snd)

/-- A one-bundle registry used to witness the registry claims. -/
def sampleRegistry : SessionRegistry :=
  ⟨⟨true, true⟩, [("k", ⟨0, ⟨true, true⟩⟩)], 1⟩

/-- C2 counterexample: `"https://x.test//"` and `"https://x.test"` differ
textually by more than a single trailing slash, yet `_urls_differ` treats
them as equal (no re-navigation), because `rstrip("/")` removes every
trailing slash. -/
theorem C2_counterexample :
    urlsDiffer "https://x.test//" "https://x.test" = false ∧
    "https://x.test//" ≠ "https://x.test/" ∧
    "https://x.test//" ≠ "https://x.test" :=
  ⟨by decide, by decide, by decide⟩

/-- C2 (amended): in persistent mode re-navigation is triggered exactly when
the current URL is empty or the two URLs still differ after stripping all
trailing slashes from each (so any run of trailing slashes is ignored, not
just a single one); `"https://x.test/"` equals `"https://x.test"`,
`"https://x.test/a"` and `"https://x.test/b"` differ, and an empty current
URL always differs. -/
theorem C2_urls_differ_amended :
    (∀ current target : String,
      urlsDiffer current target = true ↔
        (current = "" ∨ rstripSlashes current ≠ rstripSlashes target)) ∧
    urlsDiffer "https://x.test/" "https://x.test" = false ∧
    urlsDiffer "https://x.test/a" "https://x.test/b" = true ∧
    (∀ target : String, urlsDiffer "" target = true) := by
  refine ⟨?_, by decide, by decide, fun t => by simp [urlsDiffer]⟩
  intro c t
  unfold urlsDiffer
  by_cases hc : c = ""
  · simp [hc]
  · by_cases he : c = t
    · subst he
      simp [hc]
    · simp [hc, he]

/-- Normalization succeeds on instruction lists whose selectors are all
non-empty after trimming, producing trimmed selectors in order. -/
theorem normalizeRaw_ok (raws : List RawInstr)
    (h : ∀ r ∈ raws, rawSelector r.selector ≠ "") :
    normalizeRaw raws = .ok (raws.map fun r =>
      { selector := rawSelector r.selector, value := r.value, strategy := r.strategy,
        clear := r.clear, delay := r.delay }) := by
  induction raws with
  | nil => rfl
  | cons r rest ih =>
    have hr : rawSelector r.selector ≠ "" := h r (List.mem_cons_self _ _)
    have ht := ih (fun x hx => h x (List.mem_cons_of_mem _ hx))
    simp [normalizeRaw, hr, ht]

/-- Normalization fails whenever some selector is empty after trimming. -/
theorem normalizeRaw_err (raws : List RawInstr)
    (h : ∃ r ∈ raws, rawSelector r.selector = "") :
    ∃ e, normalizeRaw raws = .error e := by
  induction raws with
  | nil =>
    rcases h with ⟨r, hr, _⟩
    simp at hr
  | cons r rest ih =>
    by_cases hr : rawSelector r.selector = ""
    · exact ⟨"Field selector must be a non-empty string.", by simp [normalizeRaw, hr]⟩
    · rcases h with ⟨x, hx, hxe⟩
      rcases List.mem_cons.mp hx with h1 | h2
      · subst h1
        exact absurd hxe hr
      · rcases ih ⟨x, h2, hxe⟩ with ⟨e, he⟩
        exact ⟨e, by simp [normalizeRaw, hr, he]⟩

/-- C5: field normalization rejects every empty field set; a non-empty
selector→value mapping whose selectors survive trimming yields exactly one
canonical instruction per entry, in insertion order, with each selector
trimmed; and an input (mapping-shaped or sequence-shaped) containing any
selector that is empty after trimming makes the whole call fail (an
`Except.error`, so no instruction list is ever produced for the DOM
stage). -/
theorem C5_normalize_fields :
    (∀ fi : FieldsInput, (fi = .mapping [] ∨ fi = .sequence []) →
      ∃ e, normalizeFields (some fi) = .error e) ∧
    (∀ entries : List (PyVal × PyVal), entries ≠ [] →
      (∀ kv ∈ entries, rawSelector kv.1 ≠ "") →
      normalizeFields (some (.mapping entries)) =
        .ok (entries.map fun kv => { selector := rawSelector kv.1, value := kv.2 })) ∧
    (∀ entries : List (PyVal × PyVal), (∃ kv ∈ entries, rawSelector kv.1 = "") →
      ∃ e, normalizeFields (some (.mapping entries)) = .error e) ∧
    (∀ (entries : List SeqEntry) (raws : List RawInstr),
      seqEntriesToRaw entries = .ok raws →
      (∃ r ∈ raws, rawSelector r.selector = "") →
      ∃ e, normalizeFields (some (.sequence entries)) = .error e) := by
  refine ⟨?_, ?_, ?_, ?_⟩
  · rintro fi (rfl | rfl)
    · exact ⟨_, rfl⟩
    · exact ⟨_, rfl⟩
  · intro entries hne h
    have hok := normalizeRaw_ok (entries.map fun kv => { selector := kv.1, value := kv.2 })
      (by
        intro r hr
        rcases List.mem_map.mp hr with ⟨kv, hkv, rfl⟩
        exact h kv hkv)
    have hempty : ((entries.map fun kv =>
        ({ selector := kv.1, value := kv.2 } : RawInstr)).map fun r =>
        ({ selector := rawSelector r.selector, value := r.value, strategy := r.strategy,
           clear := r.clear, delay := r.delay } : FieldInstruction)).isEmpty = false := by
      rcases entries with _ | ⟨kv, rest⟩
      · exact absurd rfl hne
      · rfl
    show finishNormalize (entries.map fun kv => { selector := kv.1, value := kv.2 }) = _
    unfold finishNormalize
    rw [hok]
    simp only [hempty, Bool.false_eq_true, if_false]
    rw [List.map_map]
    rfl
  · intro entries h
    rcases normalizeRaw_err (entries.map fun kv => { selector := kv.1, value := kv.2 })
      (by
        rcases h with ⟨kv, hkv, hsel⟩
        exact ⟨{ selector := kv.1, value := kv.2 }, List.mem_map.mpr ⟨kv, hkv, rfl⟩, hsel⟩)
      with ⟨e, he⟩
    exact ⟨e, by simp [normalizeFields, finishNormalize, he, Except.bind]⟩
  · intro entries raws hseq hbad
    rcases normalizeRaw_err raws hbad with ⟨e, he⟩
    exact ⟨e, by simp [normalizeFields, hseq, finishNormalize, he]⟩

/-- An unsupported strategy makes the per-instruction dispatch fail before
any driver action for that instruction. -/
theorem dispatchInstruction_blocked (clear : Bool) (inst : FieldInstruction)
    (h : strategyBlocked (strategyOf inst.strategy) = true) :
    dispatchInstruction clear inst =
      .error ("Unsupported field strategy: "
        ++ (match inst.strategy with | some v => pyReprV v | none => "None") ++ ".") := by
  simp [dispatchInstruction, h]

/-- Appending anything after an instruction with an unsupported strategy
does not change the outcome of the batch. -/
theorem fillFieldsGo_truncate (clear : Bool) (bad : FieldInstruction)
    (post : List FieldInstruction) (h : strategyBlocked (strategyOf bad.strategy) = true)
    (pre : List FieldInstruction) :
    fillFieldsGo clear (pre ++ bad :: post) = fillFieldsGo clear (pre ++ [bad]) := by
  induction pre with
  | nil =>
    have hbad := dispatchInstruction_blocked clear bad h
    simp [fillFieldsGo, hbad]
  | cons i pre' ih =>
    simp only [List.cons_append, fillFieldsGo, List.append_eq, ih]

/-- A batch containing an instruction with an unsupported strategy fails. -/
theorem fillFieldsGo_bad_err (clear : Bool) (bad : FieldInstruction)
    (post : List FieldInstruction) (h : strategyBlocked (strategyOf bad.strategy) = true)
    (pre : List FieldInstruction) :
    ∃ e, (fillFieldsGo clear (pre ++ bad :: post)).2 = .error e := by
  induction pre with
  | nil =>
    have hbad := dispatchInstruction_blocked clear bad h
    exact ⟨"Unsupported field strategy: "
        ++ (match bad.strategy with | some v => pyReprV v | none => "None") ++ ".",
      by simp [fillFieldsGo, hbad]⟩
  | cons i pre' ih =>
    rcases ih with ⟨e, he⟩
    cases hd : dispatchInstruction clear i with
    | error eBad => exact ⟨eBad, by simp [fillFieldsGo, hd]⟩
    | ok p =>
      rcases p with ⟨act, fr⟩
      refine ⟨e, ?_⟩
      simp only [List.cons_append, fillFieldsGo, hd]
      rcases hg : fillFieldsGo clear (pre' ++ bad :: post) with ⟨acts, r⟩
      rw [hg] at he
      cases r with
      | ok frs => simp at he
      | error eTail =>
        simp only at he
        simp [he]

/-- C7: an instruction whose explicit strategy string is outside the
supported set makes the whole batch fail with the validation error, and
nothing after it runs: the result (performed driver actions and error) is
the same as if the batch had been cut right after the bad instruction. -/
theorem C7_unsupported_strategy (clear : Bool) (pre post : List FieldInstruction)
    (bad : FieldInstruction) (h : strategyBlocked (strategyOf bad.strategy) = true) :
    fillFieldsOnPage clear (pre ++ bad :: post) = fillFieldsOnPage clear (pre ++ [bad]) ∧
    ∃ e, (fillFieldsOnPage clear (pre ++ bad :: post)).2 = .error e :=
  ⟨fillFieldsGo_truncate clear bad post h pre, fillFieldsGo_bad_err clear bad post h pre⟩

/-- C7 witness: the strategy `"hover"` aborts a batch immediately; the
trailing instruction never contributes. -/
theorem C7_witness :
    fillFieldsOnPage true
        ([] ++ ({ selector := "#s", value := .pstr "v",
                  strategy := some (.pstr "hover") } : FieldInstruction) ::
          [{ selector := "#t", value := .pstr "w" }]) =
      fillFieldsOnPage true
        ([] ++ [({ selector := "#s", value := .pstr "v",
                   strategy := some (.pstr "hover") } : FieldInstruction)]) ∧
    ∃ e, (fillFieldsOnPage true
        ([] ++ ({ selector := "#s", value := .pstr "v",
                  strategy := some (.pstr "hover") } : FieldInstruction) ::
          [{ selector := "#t", value := .pstr "w" }])).2 = .error e :=
  C7_unsupported_strategy true [] [{ selector := "#t", value := .pstr "w" }]
    { selector := "#s", value := .pstr "v", strategy := some (.pstr "hover") } (by decide)

/-- C6: per-instruction strategy selection. With no explicit strategy a
boolean `True`/`False` value dispatches as check/uncheck with effective
value true/false; an instruction whose (lowercased) strategy is `type`, or
whose effective clear flag is false while no higher-precedence strategy
applies, dispatches as character-by-character typing (the driver `type`
primitive, which appends to existing content); otherwise the instruction
dispatches as whole-value fill (the driver `fill` primitive, which
replaces existing content). -/
theorem C6_value_dispatch (clear : Bool) (inst : FieldInstruction) :
    (inst.strategy = none → inst.value = .pbool true →
      dispatchInstruction clear inst =
        .ok (.checkBox inst.selector, ⟨inst.selector, "check", .val (.pbool true)⟩)) ∧
    (inst.strategy = none → inst.value = .pbool false →
      dispatchInstruction clear inst =
        .ok (.uncheckBox inst.selector, ⟨inst.selector, "uncheck", .val (.pbool false)⟩)) ∧
    ((strategyOf inst.strategy = some "type" ∨
        (effectiveClear clear inst = false ∧
         strategyOf inst.strategy ≠ some "check" ∧
         strategyOf inst.strategy ≠ some "uncheck" ∧
         strategyOf inst.strategy ≠ some "select" ∧
         strategyBlocked (strategyOf inst.strategy) = false)) →
      boolValue inst.value = none → isSelectValue inst.value = false →
      dispatchInstruction clear inst =
        .ok (.typeText inst.selector (textOf inst.value) (delayArg inst.delay),
             ⟨inst.selector, "type", .val (.pstr (textOf inst.value))⟩)) ∧
    (effectiveClear clear inst = true →
      strategyOf inst.strategy ≠ some "type" →
      strategyOf inst.strategy ≠ some "check" →
      strategyOf inst.strategy ≠ some "uncheck" →
      strategyOf inst.strategy ≠ some "select" →
      strategyBlocked (strategyOf inst.strategy) = false →
      boolValue inst.value = none → isSelectValue inst.value = false →
      dispatchInstruction clear inst =
        .ok (.fillText inst.selector (textOf inst.value),
             ⟨inst.selector, "fill", .val (.pstr (textOf inst.value))⟩)) := by
  refine ⟨?_, ?_, ?_, ?_⟩
  · intro hs hv
    simp [dispatchInstruction, dispatchCore, strategyOf, strategyBlocked, hs, hv, boolValue]
  · intro hs hv
    simp [dispatchInstruction, dispatchCore, strategyOf, strategyBlocked, hs, hv, boolValue]
  · intro hdisj hb hsel
    rcases hdisj with hty | ⟨hc, hne1, hne2, hne3, hnb⟩
    · simp +decide [dispatchInstruction, dispatchCore, hty, hb, hsel]
    · simp [dispatchInstruction, dispatchCore, hnb, hne1, hne2, hne3, hb, hsel, hc]
  · intro hc hnety hne1 hne2 hne3 hnb hb hsel
    simp [dispatchInstruction, dispatchCore, hnb, hnety, hne1, hne2, hne3, hb, hsel, hc]

/-- C6 witness: a boolean `True` checks, `False` unchecks; `clear: false`
per instruction gives `type`; the default dispatch is `fill`. -/
theorem C6_witness :
    dispatchInstruction true { selector := "#a", value := .pbool true } =
      .ok (.checkBox "#a", ⟨"#a", "check", .val (.pbool true)⟩) ∧
    dispatchInstruction true { selector := "#b", value := .pbool false } =
      .ok (.uncheckBox "#b", ⟨"#b", "uncheck", .val (.pbool false)⟩) ∧
    dispatchInstruction true { selector := "#c", value := .pstr "v", clear := some false } =
      .ok (.typeText "#c" "v" none, ⟨"#c", "type", .val (.pstr "v")⟩) ∧
    dispatchInstruction true { selector := "#d", value := .pstr "v" } =
      .ok (.fillText "#d" "v", ⟨"#d", "fill", .val (.pstr "v")⟩) :=
  ⟨(C6_value_dispatch true _).1 rfl rfl,
   (C6_value_dispatch true _).2.1 rfl rfl,
   (C6_value_dispatch true _).2.2.1
     (Or.inr ⟨rfl, by decide, by decide, by decide, rfl⟩) rfl rfl,
   (C6_value_dispatch true _).2.2.2 rfl (by decide) (by decide) (by decide) (by decide)
     rfl rfl rfl⟩

/-- When the (lowercased) strategy is not blocked, the dispatcher is its
strategy-selection body. -/
theorem dispatchInstruction_eq_core (clear : Bool) (inst : FieldInstruction)
    (h : strategyBlocked (strategyOf inst.strategy) = false) :
    dispatchInstruction clear inst = dispatchCore clear inst (strategyOf inst.strategy) := by
  simp only [dispatchInstruction]
  rw [h]
  simp

/-- C10: the dispatcher lowercases a string strategy (two raw strategy
strings with the same lowercasing dispatch identically, provided the
lowercased strategy is supported), and treats a non-string strategy entry
as unset: it never hits the unsupported-strategy guard and dispatches
exactly as if no strategy had been given. -/
theorem C10_strategy_coercion (clear : Bool) (inst : FieldInstruction) :
    (∀ s t : String, inst.strategy = some (.pstr s) → pyLower s = pyLower t →
      strategyBlocked (some (pyLower s)) = false →
      dispatchInstruction clear inst =
        dispatchInstruction clear { inst with strategy := some (.pstr t) }) ∧
    (∀ v : PyVal, inst.strategy = some v → (∀ u : String, v ≠ .pstr u) →
      strategyOf inst.strategy = none ∧
      dispatchInstruction clear inst =
        dispatchInstruction clear { inst with strategy := none }) := by
  constructor
  · intro s t hs hst hnb
    have e1 := dispatchInstruction_eq_core clear inst (by rw [hs]; exact hnb)
    have e2 := dispatchInstruction_eq_core clear { inst with strategy := some (.pstr t) }
      (by
        show strategyBlocked (some (pyLower t)) = false
        rw [← hst]
        exact hnb)
    rw [e1, e2, hs]
    show dispatchCore clear inst (some (pyLower s)) =
      dispatchCore clear { inst with strategy := some (.pstr t) } (some (pyLower t))
    rw [← hst]
    rfl
  · intro v hv hu
    have hso : strategyOf inst.strategy = none := by
      rw [hv]
      cases v with
      | pstr u => exact absurd rfl (hu u)
      | pnone => rfl
      | pbool b => rfl
      | pint n => rfl
      | plist xs => rfl
      | pdict kvs => rfl
    have e1 := dispatchInstruction_eq_core clear inst (by rw [hso]; rfl)
    have e2 := dispatchInstruction_eq_core clear { inst with strategy := none } (by rfl)
    refine ⟨hso, ?_⟩
    rw [e1, e2, hso]
    rfl

/-- C10 witness: `"FILL"` dispatches like `"fill"`; an integer strategy
entry is treated as unset. -/
theorem C10_witness :
    dispatchInstruction true
        { selector := "#s", value := .pstr "v", strategy := some (.pstr "FILL") } =
      dispatchInstruction true
        { selector := "#s", value := .pstr "v", strategy := some (.pstr "fill") } ∧
    (strategyOf (some (.pint 7)) = none ∧
      dispatchInstruction true
          { selector := "#s", value := .pstr "v", strategy := some (.pint 7) } =
        dispatchInstruction true { selector := "#s", value := .pstr "v" }) :=
  ⟨(C10_strategy_coercion true
      { selector := "#s", value := .pstr "v", strategy := some (.pstr "FILL") }).1
      "FILL" "fill" rfl (by decide) (by decide),
   (C10_strategy_coercion true
      { selector := "#s", value := .pstr "v", strategy := some (.pint 7) }).2
      (.pint 7) rfl (fun _ h => by cases h)⟩

/-- C1 counterexample: when all three evaluation attempts fail with the
invalidated-execution-context error, `_collect_links` propagates the error
raised on the third attempt (the `attempt < 2` guard fails there) instead
of returning the empty result set claimed. -/
theorem C1_counterexample :
    (collectLinksRetry (fun _ => .evalErr "Execution context was destroyed: raced")).2 =
      .error "Execution context was destroyed: raced" ∧
    (collectLinksRetry (fun _ => .evalErr "Execution context was destroyed: raced")).2 ≠
      .ok ⟨[], false, 0⟩ :=
  ⟨rfl, fun h => Except.noConfusion h⟩

/-- C1 (amended): a failure with the invalidated-context error is retried
after waiting for the page's load state, up to 3 total attempts, so two
stale failures followed by a success return the successful result; any
other failure propagates immediately; but exhausting all 3 attempts with
the stale error propagates the final error instead of yielding an empty
result (the post-loop empty fallback is unreachable). -/
theorem C1_retry_amended (outcomes : Nat → EvalOutcome) :
    (∀ r : ScriptResult, outcomes 0 = .evalOk (some r) →
      collectLinksRetry outcomes =
        ([.evalAttempt 0], .ok ⟨r.links, r.truncated, r.total⟩)) ∧
    (∀ (m0 m1 : String) (r : ScriptResult),
      outcomes 0 = .evalErr m0 → pyInStr staleContextText m0 = true →
      outcomes 1 = .evalErr m1 → pyInStr staleContextText m1 = true →
      outcomes 2 = .evalOk (some r) →
      collectLinksRetry outcomes =
        ([.evalAttempt 0, .waitForLoadState, .evalAttempt 1, .waitForLoadState,
          .evalAttempt 2],
         .ok ⟨r.links, r.truncated, r.total⟩)) ∧
    (∀ m0 : String, outcomes 0 = .evalErr m0 → pyInStr staleContextText m0 = false →
      collectLinksRetry outcomes = ([.evalAttempt 0], .error m0)) ∧
    (∀ m0 m1 m2 : String,
      outcomes 0 = .evalErr m0 → pyInStr staleContextText m0 = true →
      outcomes 1 = .evalErr m1 → pyInStr staleContextText m1 = true →
      outcomes 2 = .evalErr m2 →
      collectLinksRetry outcomes =
        ([.evalAttempt 0, .waitForLoadState, .evalAttempt 1, .waitForLoadState,
          .evalAttempt 2],
         .error m2)) := by
  refine ⟨?_, ?_, ?_, ?_⟩
  · intro r h0
    simp [collectLinksRetry, collectLoop, h0]
  · intro m0 m1 r h0 hs0 h1 hs1 h2
    simp [collectLinksRetry, collectLoop, h0, hs0, h1, hs1, h2]
  · intro m0 h0 hs0
    simp [collectLinksRetry, collectLoop, h0, hs0]
  · intro m0 m1 m2 h0 hs0 h1 hs1 h2
    simp [collectLinksRetry, collectLoop, h0, hs0, h1, hs1, h2]

/-- C1 witness: the retry policy at concrete outcome sequences — immediate
success, two stale failures then success, an unrelated failure, and three
stale failures. -/
theorem C1_witness :
    collectLinksRetry (fun _ => .evalOk (some ⟨[], false, 0⟩)) =
      ([.evalAttempt 0], .ok ⟨[], false, 0⟩) ∧
    collectLinksRetry (fun n =>
        if n = 2 then .evalOk (some ⟨[], false, 7⟩)
        else .evalErr "Execution context was destroyed") =
      ([.evalAttempt 0, .waitForLoadState, .evalAttempt 1, .waitForLoadState,
        .evalAttempt 2],
       .ok ⟨[], false, 7⟩) ∧
    collectLinksRetry (fun _ => .evalErr "net::ERR_FAILED") =
      ([.evalAttempt 0], .error "net::ERR_FAILED") ∧
    collectLinksRetry (fun _ => .evalErr "Execution context was destroyed") =
      ([.evalAttempt 0, .waitForLoadState, .evalAttempt 1, .waitForLoadState,
        .evalAttempt 2],
       .error "Execution context was destroyed") :=
  ⟨(C1_retry_amended _).1 ⟨[], false, 0⟩ rfl,
   (C1_retry_amended _).2.1 "Execution context was destroyed"
     "Execution context was destroyed" ⟨[], false, 7⟩ rfl rfl rfl rfl rfl,
   (C1_retry_amended _).2.2.1 "net::ERR_FAILED" rfl rfl,
   (C1_retry_amended _).2.2.2 "Execution context was destroyed"
     "Execution context was destroyed" "Execution context was destroyed"
     rfl rfl rfl rfl rfl⟩

/-- The element map of the collection script preserves length. -/
theorem mapLinks_length (xs : List DomElement) : ∀ i : Nat, (mapLinks i xs).length = xs.length := by
  induction xs with
  | nil => intro i; rfl
  | cons e rest ih => intro i; simp [mapLinks, ih]

/-- The element map of the collection script numbers positions from the
running index plus one. -/
theorem mapLinks_position (xs : List DomElement) :
    ∀ (i j : Nat) (h : j < (mapLinks i xs).length),
      ((mapLinks i xs).get ⟨j, h⟩).position = i + j + 1 := by
  induction xs with
  | nil => intro i j h; simp [mapLinks] at h
  | cons e rest ih =>
    intro i j h
    cases j with
    | zero => simp [mapLinks, mkLinkRecord]
    | succ j' =>
      have hlt : j' < (mapLinks (i + 1) rest).length := by
        simpa [mapLinks] using Nat.lt_of_succ_lt_succ (by simpa [mapLinks] using h)
      have := ih (i + 1) j' hlt
      simp only [mapLinks, List.get_cons_succ]
      rw [this]
      omega

/-- Positions in a collection built with starting index 0 are 1-based. -/
theorem position_of_mapLinks (ys : List DomElement) (jv : Nat)
    (hj : jv < (mapLinks 0 ys).length) :
    ((mapLinks 0 ys).get ⟨jv, hj⟩).position = jv + 1 := by
  have := mapLinks_position ys 0 jv hj
  rw [this]
  omega

/-- JS `slice(0, cap)` with a natural cap is `take`. -/
theorem jsSliceTo_ofNat (xs : List DomElement) (cap : Nat) :
    jsSliceTo xs (cap : Int) = xs.take cap := by
  unfold jsSliceTo
  rw [if_neg (by omega)]
  simp

/-- C8: with a result cap, the reported total is the full untruncated count,
`truncated` holds exactly when the total exceeds the cap, and at most
cap-many items are returned, each with a 1-based position; with no cap,
`truncated` is false and every element is returned. -/
theorem C8_truncation (elements : List DomElement) (cap : Nat) :
    (collectLinksScript true elements (some (cap : Int))).total = elements.length ∧
    (collectLinksScript true elements (some (cap : Int))).truncated
      = decide (elements.length > cap) ∧
    (collectLinksScript true elements (some (cap : Int))).links.length
      = min cap elements.length ∧
    (∀ j : Fin (collectLinksScript true elements (some (cap : Int))).links.length,
      ((collectLinksScript true elements (some (cap : Int))).links.get j).position
        = j.val + 1) ∧
    (collectLinksScript true elements none).truncated = false ∧
    (collectLinksScript true elements none).links.length = elements.length ∧
    (∀ j : Fin (collectLinksScript true elements none).links.length,
      ((collectLinksScript true elements none).links.get j).position = j.val + 1) := by
  have hdec : (decide ((elements.length : Int) > (cap : Int)))
      = decide (elements.length > cap) := by
    simp only [decide_eq_decide]
    omega
  have hsome : collectLinksScript true elements (some (cap : Int)) =
      ⟨mapLinks 0 (if decide (elements.length > cap) = true
          then jsSliceTo elements (cap : Int) else elements),
        decide (elements.length > cap), elements.length⟩ := by
    simp only [collectLinksScript, hdec]
    rfl
  have hnone : collectLinksScript true elements none =
      ⟨mapLinks 0 elements, false, elements.length⟩ := rfl
  refine ⟨by rw [hsome], by rw [hsome], ?_, ?_, by rw [hnone], ?_, ?_⟩
  · rw [hsome]
    by_cases hgt : elements.length > cap
    · have hb : decide (elements.length > cap) = true := by simpa using hgt
      simp only [hb, if_true]
      rw [jsSliceTo_ofNat, mapLinks_length, List.length_take]
    · have hb : decide (elements.length > cap) = false := by simpa using hgt
      simp only [hb, Bool.false_eq_true, if_false]
      rw [mapLinks_length]
      omega
  · rintro ⟨jv, hj⟩
    exact position_of_mapLinks _ jv hj
  · rw [hnone]
    exact mapLinks_length elements 0
  · rintro ⟨jv, hj⟩
    exact position_of_mapLinks _ jv hj

/-- C3: in disposable mode a missing or whitespace-only URL fails with a
validation error before any browser call (the event trace is empty), and
once validation passes the freshly created Context is closed as the very
last step on every outcome: navigation failure, body failure, or success. -/
theorem C3_disposable (url : Option String) (waitUntil : String)
    (storage : Option String) (gotoFails bodyFails : Bool) :
    ((url = none ∨ ∃ u, url = some u ∧ pyStrip u = "") →
      (openPageDisposable url waitUntil storage gotoFails bodyFails).1 = [] ∧
      ∃ e, (openPageDisposable url waitUntil storage gotoFails bodyFails).2 = .error e) ∧
    (∀ u, url = some u → waitUntil ∈ allowedWaitStates → pyStrip u ≠ "" →
      (openPageDisposable url waitUntil storage gotoFails bodyFails).1.getLast?
        = some .closeContext ∧
      BrowserEvent.newContext storage ∈
        (openPageDisposable url waitUntil storage gotoFails bodyFails).1) := by
  constructor
  · intro hbad
    by_cases hw : waitUntil ∈ allowedWaitStates
    · rcases hbad with rfl | ⟨u, rfl, hstrip⟩
      · exact ⟨by simp [openPageDisposable, hw],
          ⟨"url must be a non-empty string.", by simp [openPageDisposable, hw]⟩⟩
      · by_cases hu : u = ""
        · exact ⟨by simp [openPageDisposable, hw, hu],
            ⟨"url must be a non-empty string.", by simp [openPageDisposable, hw, hu]⟩⟩
        · exact ⟨by simp [openPageDisposable, hw, hu, hstrip],
            ⟨"url must be a non-empty string.",
              by simp [openPageDisposable, hw, hu, hstrip]⟩⟩
    · exact ⟨by simp [openPageDisposable, hw],
        ⟨"wait_until must be one of the allowed wait states.",
          by simp [openPageDisposable, hw]⟩⟩
  · rintro u rfl hw hne
    have hu : u ≠ "" := by
      intro h
      exact hne (by rw [h]; rfl)
    cases gotoFails <;> cases bodyFails <;>
      simp [openPageDisposable, hw, hu, hne]

/-- C3 witness: a `None` URL and a whitespace URL fail with no browser
events; a valid URL closes the context last on success and on both failure
modes. -/
theorem C3_witness :
    ((openPageDisposable none "load" none false false).1 = [] ∧
      ∃ e, (openPageDisposable none "load" none false false).2 = .error e) ∧
    ((openPageDisposable (some "  ") "load" none false false).1 = [] ∧
      ∃ e, (openPageDisposable (some "  ") "load" none false false).2 = .error e) ∧
    (openPageDisposable (some "https://e.test") "load" none false false).1.getLast?
      = some .closeContext ∧
    (openPageDisposable (some "https://e.test") "load" none true false).1.getLast?
      = some .closeContext ∧
    (openPageDisposable (some "https://e.test") "load" none false true).1.getLast?
      = some .closeContext :=
  ⟨(C3_disposable none "load" none false false).1 (Or.inl rfl),
   (C3_disposable (some "  ") "load" none false false).1 (Or.inr ⟨"  ", rfl, rfl⟩),
   ((C3_disposable (some "https://e.test") "load" none false false).2
      "https://e.test" rfl (by decide) (by decide)).1,
   ((C3_disposable (some "https://e.test") "load" none true false).2
      "https://e.test" rfl (by decide) (by decide)).1,
   ((C3_disposable (some "https://e.test") "load" none false true).2
      "https://e.test" rfl (by decide) (by decide)).1⟩

/-- When recreation is needed, `_ensure_persistent_page` installs the fresh
context/page record. -/
theorem ensurePersistent_recreate (st : PersistState) (key : Option String) (ex : Bool)
    (h : needsNewContext st key = true) :
    ensurePersistentPage st key ex =
      { contextId := some st.nextId, hasPage := true, pageClosed := false,
        currentKey := key, hydratedFrom := if ex then key else none,
        nextId := st.nextId + 1 } := by
  unfold ensurePersistentPage
  rw [h]
  simp

/-- When recreation is not needed, `_ensure_persistent_page` is the
identity. -/
theorem ensurePersistent_keep (st : PersistState) (key : Option String) (ex : Bool)
    (h : needsNewContext st key = false) :
    ensurePersistentPage st key ex = st := by
  unfold ensurePersistentPage
  rw [h]
  simp

/-- C4: the persistent Context/Page pair is recreated exactly when no
context or page exists, the page reports closed, or the resolved
storage-state identity differs from the one the context was built with;
recreation installs a fresh context identity hydrated from the resolved
state (when it exists on disk) and records the new identity key; otherwise
the state is untouched.  In particular a storage-identity switch recreates
the context exactly once: the immediately following call with the same
resolved identity leaves the state unchanged. -/
theorem C4_persistent (st : PersistState) (key : Option String) (ex ex2 : Bool)
    (hfresh : ∀ i, st.contextId = some i → i < st.nextId) :
    (needsNewContext st key = true ↔
      (st.contextId = none ∨ st.hasPage = false ∨ st.pageClosed = true ∨
        st.currentKey ≠ key)) ∧
    (ensurePersistentPage st key ex ≠ st ↔ needsNewContext st key = true) ∧
    (needsNewContext st key = true →
      (ensurePersistentPage st key ex).contextId = some st.nextId ∧
      (ensurePersistentPage st key ex).currentKey = key ∧
      (ensurePersistentPage st key ex).hydratedFrom = (if ex then key else none) ∧
      (ensurePersistentPage st key ex).hasPage = true ∧
      (ensurePersistentPage st key ex).pageClosed = false) ∧
    (needsNewContext st key = false → ensurePersistentPage st key ex = st) ∧
    (st.contextId.isSome = true → st.hasPage = true → st.pageClosed = false →
      st.currentKey ≠ key →
      (ensurePersistentPage st key ex).contextId = some st.nextId ∧
      ensurePersistentPage (ensurePersistentPage st key ex) key ex2 =
        ensurePersistentPage st key ex) := by
  refine ⟨?_, ?_, ?_, ?_, ?_⟩
  · simp only [needsNewContext, Bool.or_eq_true, Option.isNone_iff_eq_none,
      Bool.not_eq_true', decide_eq_true_eq, ne_eq]
    tauto
  · by_cases hn : needsNewContext st key = true
    · simp only [hn, iff_true]
      rw [ensurePersistent_recreate st key ex hn]
      intro heq
      have hcid := congrArg PersistState.contextId heq
      simp only at hcid
      have := hfresh st.nextId hcid.symm
      omega
    · have hn' : needsNewContext st key = false := by simpa using hn
      simp [ensurePersistent_keep st key ex hn', hn']
  · intro hn
    rw [ensurePersistent_recreate st key ex hn]
    exact ⟨rfl, rfl, rfl, rfl, rfl⟩
  · intro hn
    exact ensurePersistent_keep st key ex hn
  · intro h1 h2 h3 h4
    have hn : needsNewContext st key = true := by
      simp [needsNewContext, h4]
    have hrec := ensurePersistent_recreate st key ex hn
    have hstop : needsNewContext (ensurePersistentPage st key ex) key = false := by
      rw [hrec]
      simp [needsNewContext]
    exact ⟨by rw [hrec], ensurePersistent_keep _ key ex2 hstop⟩

/-- C4 witness: switching the resolved identity from `"A"` to `"B"` on a
live open page recreates the context once with a fresh identity and a
second call with identity `"B"` changes nothing; a call with the unchanged
identity `"A"` also changes nothing. -/
theorem C4_witness :
    needsNewContext ⟨some 0, true, false, some "A", some "A", 1⟩ (some "B") = true ∧
    (ensurePersistentPage ⟨some 0, true, false, some "A", some "A", 1⟩
      (some "B") true).contextId = some 1 ∧
    ensurePersistentPage
        (ensurePersistentPage ⟨some 0, true, false, some "A", some "A", 1⟩ (some "B") true)
        (some "B") true =
      ensurePersistentPage ⟨some 0, true, false, some "A", some "A", 1⟩ (some "B") true ∧
    ensurePersistentPage ⟨some 0, true, false, some "A", some "A", 1⟩ (some "A") true =
      ⟨some 0, true, false, some "A", some "A", 1⟩ :=
  ⟨(C4_persistent ⟨some 0, true, false, some "A", some "A", 1⟩ (some "B") true true
      (by intro i hi; show i < 1; simp at hi; omega)).1.mpr
      (Or.inr (Or.inr (Or.inr (by decide)))),
   ((C4_persistent ⟨some 0, true, false, some "A", some "A", 1⟩ (some "B") true true
      (by intro i hi; show i < 1; simp at hi; omega)).2.2.2.2 rfl rfl rfl (by decide)).1,
   ((C4_persistent ⟨some 0, true, false, some "A", some "A", 1⟩ (some "B") true true
      (by intro i hi; show i < 1; simp at hi; omega)).2.2.2.2 rfl rfl rfl (by decide)).2,
   (C4_persistent ⟨some 0, true, false, some "A", some "A", 1⟩ (some "A") true true
      (by intro i hi; show i < 1; simp at hi; omega)).2.2.2.1 (by decide)⟩

/-- Appending a new binding for an absent key makes it findable. -/
theorem lookupAgent_append_of_none (xs : List (String × AgentBundle)) (k : String)
    (b : AgentBundle) (h : lookupAgent xs k = none) :
    lookupAgent (xs ++ [(k, b)]) k = some b := by
  induction xs with
  | nil => simp [lookupAgent]
  | cons kb rest ih =>
    rcases kb with ⟨k0, b0⟩
    by_cases hk : k0 = k
    · simp [lookupAgent, hk] at h
    · simp only [lookupAgent, hk, List.cons_append, if_false, reduceIte] at h ⊢
      exact ih h

/-- A lookup whose key is already cached returns the cached bundle and does
not modify the registry. -/
theorem getAgentBundle_cached (r : SessionRegistry) (cid : Option String)
    (b : AgentBundle) (h : lookupAgent r.agents (sessionKey cid) = some b) :
    getAgentBundle r cid = (r, b) := by
  simp only [getAgentBundle]
  rw [h]

/-- C9: the registry maps each client key (the fixed default when no key is
given) to exactly one bundle, created lazily on first reference and cached,
so a repeated lookup returns the identical bundle and leaves the registry
unchanged; reconfiguring resets the registry, handing every existing bundle
to shutdown, and subsequent lookups create fresh bundles carrying the new
configuration. -/
theorem C9_registry (r : SessionRegistry) (cid : Option String) (h p : Bool)
    (hfresh : ∀ kb ∈ r.agents, kb.2.botId < r.nextBotId) :
    (getAgentBundle (getAgentBundle r cid).1 cid).2 = (getAgentBundle r cid).2 ∧
    (getAgentBundle (getAgentBundle r cid).1 cid).1 = (getAgentBundle r cid).1 ∧
    lookupAgent (getAgentBundle r cid).1.agents (sessionKey cid)
      = some (getAgentBundle r cid).2 ∧
    sessionKey none = sessionKeyDefault ∧
    (configureBrowserAgent r h p).1.agents = [] ∧
    (configureBrowserAgent r h p).1.config = ⟨h, p⟩ ∧
    (configureBrowserAgent r h p).2 = r.agents.map Prod.snd ∧
    (getAgentBundle (configureBrowserAgent r h p).1 cid).2.botConfig = ⟨h, p⟩ ∧
    (getAgentBundle (configureBrowserAgent r h p).1 cid).2 ∉ r.agents.map Prod.snd := by
  have hlook : lookupAgent (getAgentBundle r cid).1.agents (sessionKey cid)
      = some (getAgentBundle r cid).2 := by
    cases hl : lookupAgent r.agents (sessionKey cid) with
    | some b => rw [getAgentBundle_cached r cid b hl]; exact hl
    | none =>
      have hcreate : getAgentBundle r cid =
          ((⟨r.config, r.agents ++ [(sessionKey cid, ⟨r.nextBotId, r.config⟩)],
              r.nextBotId + 1⟩ : SessionRegistry),
            (⟨r.nextBotId, r.config⟩ : AgentBundle)) := by
        simp only [getAgentBundle]
        rw [hl]
      rw [hcreate]
      exact lookupAgent_append_of_none r.agents (sessionKey cid) _ hl
  have hre := getAgentBundle_cached (getAgentBundle r cid).1 cid (getAgentBundle r cid).2 hlook
  refine ⟨?_, ?_, hlook, rfl, rfl, rfl, rfl, ?_, ?_⟩
  · rw [hre]
  · rw [hre]
  · simp [getAgentBundle, configureBrowserAgent, lookupAgent]
  · intro hmem
    rcases List.mem_map.mp hmem with ⟨kb, hin, hb⟩
    have hlt := hfresh kb hin
    have hid : kb.2.botId = r.nextBotId := by
      rw [hb]
      simp [getAgentBundle, configureBrowserAgent, lookupAgent]
    omega

/-- C9 witness: on a concrete registry, a second lookup for the same key
returns the identical bundle without touching the registry, and after a
reconfiguration the fresh bundle carries the new configuration and is not
one of the discarded bundles. -/
theorem C9_witness :
    (getAgentBundle (getAgentBundle sampleRegistry (some "k")).1 (some "k")).2 =
      (getAgentBundle sampleRegistry (some "k")).2 ∧
    (getAgentBundle (getAgentBundle sampleRegistry (some "k")).1 (some "k")).1 =
      (getAgentBundle sampleRegistry (some "k")).1 ∧
    (getAgentBundle (configureBrowserAgent sampleRegistry false true).1
        (some "k")).2.botConfig = ⟨false, true⟩ ∧
    (getAgentBundle (configureBrowserAgent sampleRegistry false true).1 (some "k")).2 ∉
      sampleRegistry.agents.map Prod.snd :=
  ⟨(C9_registry sampleRegistry (some "k") false true (by decide)).1,
   (C9_registry sampleRegistry (some "k") false true (by decide)).2.1,
   (C9_registry sampleRegistry (some "k") false true (by decide)).2.2.2.2.2.2.2.1,
   (C9_registry sampleRegistry (some "k") false true (by decide)).2.2.2.2.2.2.2.2⟩

/-- C5 witness: the empty mapping fails; `{"a": "x", "b": "y"}` yields
exactly the two instructions in insertion order; a whitespace-only selector
fails. -/
theorem C5_witness :
    (∃ e, normalizeFields (some (.mapping [])) = .error e) ∧
    normalizeFields (some (.mapping [(.pstr "a", .pstr "x"), (.pstr "b", .pstr "y")])) =
      .ok [{ selector := "a", value := .pstr "x" }, { selector := "b", value := .pstr "y" }] ∧
    (∃ e, normalizeFields (some (.mapping [(.pstr " ", .pstr "x")])) = .error e) ∧
    (∃ e, normalizeFields
        (some (.sequence [.pairEntry (.pstr " ") (.pstr "x")])) = .error e) := by
  refine ⟨C5_normalize_fields.1 (.mapping []) (Or.inl rfl), ?_,
    C5_normalize_fields.2.2.1 [(.pstr " ", .pstr "x")]
      ⟨(.pstr " ", .pstr "x"), List.mem_singleton.mpr rfl, by decide⟩,
    C5_normalize_fields.2.2.2 [.pairEntry (.pstr " ") (.pstr "x")]
      [{ selector := .pstr " ", value := .pstr "x" }] rfl
      ⟨{ selector := .pstr " ", value := .pstr "x" }, List.mem_singleton.mpr rfl,
        by decide⟩⟩
  exact C5_normalize_fields.2.1 [(.pstr "a", .pstr "x"), (.pstr "b", .pstr "y")]
    (by simp) (by decide)
